import Mathlib

/-!
Verification development for the PyLag offline particle tracking engine.

The definitions below are shallow embeddings of the Cython sources
(`model.pyx`, `integrator.pyx`, `fvcom_data_reader.pyx` and the GOTM data
reader).  Floating point numbers are modelled by the rationals, machine
integers by unbounded integers, exceptions by `Option`/`none`, and
unbounded `while` loops by an explicit fuel argument.  External
collaborators that the core only calls (mediators, random walk models,
boundary condition calculators, search routines) are modelled as function
parameters, so theorems quantify over their behaviour.
-/

/-- Modelled from the spec: the host search tolerance EPSILON from
`constants.pxi` (not under `src/`); the spec fixes it at `1e-10`. -/
def EPSILON : ℚ := 1 / 10000000000

/-- Modelled from the spec: `interpolation.linear_interp` (module not under
`src/`); linear interpolation between a last and a next value with
fraction `a`. -/
def linear_interp (a x y : ℚ) : ℚ := (1 - a) * x + a * y

/-- Modelled from the spec: `interpolation.get_linear_fraction` (module not
under `src/`); the plain linear fraction `(v - a) / (b - a)`. -/
def get_linear_fraction (v a b : ℚ) : ℚ := (v - a) / (b - a)

/-- Modelled from the spec: `interpolation.interpolate_within_element`
(module not under `src/`); the barycentric combination
`sum of f i * phi i` over the three vertices. -/
def interpolate_within_element (f phi : Fin 3 → ℚ) : ℚ :=
  f 0 * phi 0 + f 1 * phi 1 + f 2 * phi 2

/-- Modelled from the spec: `pylag.math.sigma_to_cartesian_coords` (module
not under `src/`); the glossary gives `z = sigma * (h + zeta) + zeta`, with
`zmin = -h` and `zmax = zeta`, hence `z = sigma * (zmax - zmin) + zmax`. -/
def sigma_to_cartesian_coords (sigma zmin zmax : ℚ) : ℚ :=
  sigma * (zmax - zmin) + zmax

/-!
FVCOMDataReader.find_host_using_local_search
(`fvcom_data_reader.pyx`, lines 108-186).

The barycentric coordinates of the query point in each candidate element
are supplied by the `phi` parameter (the source computes them with
`_get_phi`, which calls `interpolation.get_barycentric_coords`, a module
not under `src/`).  The cdef local `n_host_land_boundaries` is read by the
guard at line 164 without ever being assigned; its indeterminate stack
value is made explicit as a parameter of the embedding.  The loop body
computes `n_land_boundaries` (line 159-162) but the guard does not use
it.  `none` models fuel exhaustion of the `while True` loop and the
RuntimeError at line 182.
-/
set_option linter.unusedVariables false in
def find_host_using_local_search (nbe : Fin 3 → ℤ → ℤ) (phi : ℤ → Fin 3 → ℚ)
    (n_host_land_boundaries : ℤ) : ℕ → ℤ → Option ℤ
  | 0, _ => none
  | fuel + 1, guess =>
    let p0 := phi guess 0
    let p1 := phi guess 1
    let p2 := phi guess 2
    let phi_test := min (min p0 p1) p2
    -- host_found is set when phi_test >= 0.0, or when phi_test >= -EPSILON
    if 0 ≤ phi_test ∨ -EPSILON ≤ phi_test then
      -- line 159: the land boundary count that the source computes ...
      let n_land_boundaries : ℤ :=
        (if nbe 0 guess = -1 then 1 else 0) +
          ((if nbe 1 guess = -1 then 1 else 0) +
            (if nbe 2 guess = -1 then 1 else 0))
      -- line 164: ... while the guard reads the uninitialised variable
      if n_host_land_boundaries < 2 then some guess else some (-1)
    else
      let step : Option ℤ :=
        if p0 = phi_test then some (nbe 0 guess)
        else if p1 = phi_test then some (nbe 1 guess)
        else if p2 = phi_test then some (nbe 2 guess)
        else none
      match step with
      | none => none
      | some g =>
        if g = -1 then some g
        else find_host_using_local_search nbe phi n_host_land_boundaries fuel g

/-- Adjacency of a concrete counterexample grid: element 0 has land
boundaries (`nbe = -1`) across edges 0 and 1 and a neighbour across
edge 2. -/
def nbeTwoLand : Fin 3 → ℤ → ℤ := fun i _ => if i.val < 2 then -1 else 1

/-- Adjacency of a concrete grid with no land boundary at all. -/
def nbeNoLand : Fin 3 → ℤ → ℤ := fun i _ => (i.val : ℤ) + 1

/-- Barycentric coordinates placing the query point strictly inside every
element. -/
def phiInside : ℤ → Fin 3 → ℚ := fun _ _ => 1 / 3

/-- Claim C1: the local host search is claimed to return `-1` whenever the
geometrically identified element has two or more land edges and the
element index otherwise.  The source instead branches on the uninitialised
`n_host_land_boundaries`: with stack junk `0` an element with two land
edges is returned as a valid host, and with stack junk `2` an element with
no land edge is rejected with `-1`.  Both evaluations contradict the
claim. -/
theorem find_host_two_land_bug :
    find_host_using_local_search nbeTwoLand phiInside 0 1 0 = some 0 ∧
      find_host_using_local_search nbeNoLand phiInside 2 1 0 = some (-1) := by
  constructor <;>
    simp [find_host_using_local_search, nbeTwoLand, nbeNoLand, phiInside, EPSILON]

/-!
Particle state, `particle.pyx` (ParticleSmartPtr fields used by the
drivers in `model.pyx`): position, host horizontal element, host z layer
and the in_domain flag.  The group id is carried for the seed logic.
-/
structure Particle where
  group_id : ℤ
  xpos : ℚ
  ypos : ℚ
  zpos : ℚ
  host_horizontal_elem : ℤ
  host_z_layer : ℤ
  in_domain : Bool
deriving DecidableEq, Repr

/-!
GOTMOPTModel.update, vertical boundary handling (`model.pyx`, lines
570-582): after summing the random walk displacement into `zpos`, one
reflection is applied when `zpos` lies outside `[zmin, zmax]`, and the
result is checked again; a value still outside the range raises a
ValueError (modelled by `none`).
-/
def gotm_reflect_zpos (zmin zmax zpos : ℚ) : Option ℚ :=
  let z1 :=
    if zpos < zmin then zmin + zmin - zpos
    else if zmax < zpos then zmax + zmax - zpos
    else zpos
  if z1 < zmin then none
  else if zmax < z1 then none
  else some z1

/-- Claim C7 counterexample: with `zmin = 0`, `zmax = 1` and a summed
vertical position `3`, one reflection gives `2 - 3 = -1`, still below the
floor; the source then raises a ValueError instead of reflecting a second
time or clamping, so no final position inside `[zmin, zmax]` is
produced. -/
theorem gotm_reflect_no_second_reflection :
    gotm_reflect_zpos 0 1 3 = none := by
  norm_num [gotm_reflect_zpos]

/-- Claim C7 (amended): the vertical correction maps `z` to
`2 * bound - z` with `bound = zmax` if `z > zmax` else `zmin`, applied at
most once; an in-range `z` is returned unchanged; if the single reflection
still leaves the position outside `[zmin, zmax]` a ValueError is raised
rather than clamping; every position actually returned lies within
`[zmin, zmax]`. -/
theorem gotm_reflect_characterisation (zmin zmax z : ℚ) (h : zmin < zmax) :
    (zmin ≤ z ∧ z ≤ zmax → gotm_reflect_zpos zmin zmax z = some z) ∧
      (zmax < z → gotm_reflect_zpos zmin zmax z =
        if 2 * zmax - z < zmin then none else some (2 * zmax - z)) ∧
      (z < zmin → gotm_reflect_zpos zmin zmax z =
        if zmax < 2 * zmin - z then none else some (2 * zmin - z)) ∧
      (∀ z1, gotm_reflect_zpos zmin zmax z = some z1 →
        zmin ≤ z1 ∧ z1 ≤ zmax) := by
  refine ⟨?_, ?_, ?_, ?_⟩
  · rintro ⟨h1, h2⟩
    simp only [gotm_reflect_zpos]
    split_ifs <;> first | rfl | (exfalso; linarith)
  · intro hz
    simp only [gotm_reflect_zpos]
    split_ifs <;> first
      | rfl
      | (exfalso; linarith)
      | (simp only [Option.some.injEq]; ring)
  · intro hz
    simp only [gotm_reflect_zpos]
    split_ifs <;> first
      | rfl
      | (exfalso; linarith)
      | (simp only [Option.some.injEq]; ring)
  · intro z1 hz1
    simp only [gotm_reflect_zpos] at hz1
    split_ifs at hz1 <;>
      (rw [Option.some.injEq] at hz1; subst hz1;
        exact ⟨by linarith, by linarith⟩)

/-- Claim C7 witness: the amended characterisation applied at
`zmin = 0`, `zmax = 1`: an overshoot from `z = 3/2` reflects once to
`1/2`, which lies inside the interval. -/
theorem gotm_reflect_characterisation_witness :
    gotm_reflect_zpos 0 1 (3 / 2) = if (2 * 1 - 3 / 2 : ℚ) < 0 then none
      else some (2 * 1 - 3 / 2) :=
  ((gotm_reflect_characterisation 0 1 (3 / 2) (by norm_num)).2.1 (by norm_num))

/-!
FVCOMOPTModel.update, land boundary loop (`model.pyx`, lines 308-322).
After summing the displacement contributions the driver queries
`find_host`; while the returned flag is `-1` (a land boundary crossing)
it applies the horizontal boundary condition calculator and re-queries
`find_host`.  The source loop carries no iteration counter; the embedding
makes the number of remaining body executions explicit as fuel, with
`none` meaning the loop was still running when the fuel ran out.
`find_host` and the boundary condition calculator are parameters: the
first maps `(x_old, y_old, x_new, y_new, last_host)` to `(flag, host)`
and the second maps the same data to a corrected `(x, y)`.
-/
def bc_step_loop (find_host : ℚ → ℚ → ℚ → ℚ → ℤ → ℤ × ℤ)
    (apply_bc : ℚ → ℚ → ℚ → ℚ → ℤ → ℚ × ℚ)
    (x_old y_old : ℚ) (host0 : ℤ) :
    ℕ → ℤ × ℤ → ℚ → ℚ → Option (ℤ × ℤ × ℚ × ℚ)
  | 0, fh, x, y => if fh.1 = -1 then none else some (fh.1, fh.2, x, y)
  | fuel + 1, fh, x, y =>
    if fh.1 = -1 then
      let xy := apply_bc x_old y_old x y host0
      bc_step_loop find_host apply_bc x_old y_old host0 fuel
        (find_host x_old y_old xy.1 xy.2 host0) xy.1 xy.2
    else some (fh.1, fh.2, x, y)

/-- A boundary oracle for which the corrected position creeps forward by
one unit per application. -/
def creepApply : ℚ → ℚ → ℚ → ℚ → ℤ → ℚ × ℚ := fun _ _ x _ _ => (x + 1, 0)

/-- A host search that keeps reporting a land crossing until the
x coordinate reaches `12`, at which point the particle is inside element
`5`. -/
def creepFindHost : ℚ → ℚ → ℚ → ℚ → ℤ → ℤ × ℤ :=
  fun _ _ x _ _ => if x < 12 then (-1, 0) else (0, 5)

/-- Claim C3 counterexample: with the creeping boundary oracle the loop
body (apply the boundary condition, re-query `find_host`) is still
running after eleven executions, and after twelve executions it exits
normally with flag `0` and host `5` - the particle is never marked
out of domain, contradicting the claimed `max_bc_iters = 10` cap. -/
theorem bc_step_loop_unbounded_counterexample :
    bc_step_loop creepFindHost creepApply 0 0 0 11 (-1, 0) 0 0 = none ∧
      bc_step_loop creepFindHost creepApply 0 0 0 20 (-1, 0) 0 0 =
        some (0, 5, 12, 0) := by
  constructor <;> norm_num [bc_step_loop, creepFindHost, creepApply]

/-- Claim C3 (amended): the land boundary loop in the driver has no
iteration bound at all: as long as `find_host` keeps returning the land
crossing flag `-1` the driver keeps applying the horizontal boundary
condition, for every finite number of iterations, and never marks the
particle out of domain; the loop exits only when `find_host` returns a
flag other than `-1`. -/
theorem bc_step_loop_never_stops_on_land :
    ∀ (fuel : ℕ) (apply_bc : ℚ → ℚ → ℚ → ℚ → ℤ → ℚ × ℚ)
      (x_old y_old x y : ℚ) (host0 h h1 : ℤ),
      bc_step_loop (fun _ _ _ _ _ => (-1, h)) apply_bc x_old y_old host0
        fuel (-1, h1) x y = none := by
  intro fuel
  induction fuel with
  | zero => intro apply_bc x_old y_old x y host0 h h1; simp [bc_step_loop]
  | succ n ih =>
    intro apply_bc x_old y_old x y host0 h h1
    simp only [bc_step_loop, if_pos rfl]
    exact ih apply_bc x_old y_old _ _ host0 h h

/-!
RK4Integrator.advect (`integrator.pyx`, lines 37-111).  The data reader
is abstracted by `get_velocity` (mapping time, position and host to a
velocity triple) and `find_host` (mapping position and a guess to a host
index, `-1` meaning the point left the domain).  The stage quantities are
named definitions so that properties can refer to them; `rk4_advect`
assembles them exactly in source order, returning the incoming particle
unchanged on every early exit.
-/

/-- Stage 1 increment `k1 = dt * vel(t, p)` (source lines 57-65). -/
def rk4_k1 (gv : ℚ → ℚ → ℚ → ℚ → ℤ → ℚ × ℚ × ℚ) (dt t : ℚ) (p : Particle) :
    ℚ × ℚ × ℚ :=
  let v := gv t p.xpos p.ypos p.zpos p.host_horizontal_elem
  (dt * v.1, dt * v.2.1, dt * v.2.2)

/-- Stage 2 probe position `p + k1 / 2` (source lines 68-71). -/
def rk4_pos2 (gv : ℚ → ℚ → ℚ → ℚ → ℤ → ℚ × ℚ × ℚ) (dt t : ℚ) (p : Particle) :
    ℚ × ℚ × ℚ :=
  let k1 := rk4_k1 gv dt t p
  (p.xpos + 1 / 2 * k1.1, p.ypos + 1 / 2 * k1.2.1, p.zpos + 1 / 2 * k1.2.2)

/-- Host element found for the stage 2 probe (source line 72). -/
def rk4_host2 (gv : ℚ → ℚ → ℚ → ℚ → ℤ → ℚ × ℚ × ℚ)
    (fh : ℚ → ℚ → ℤ → ℤ) (dt t : ℚ) (p : Particle) : ℤ :=
  let pos := rk4_pos2 gv dt t p
  fh pos.1 pos.2.1 p.host_horizontal_elem

/-- Stage 2 increment `k2 = dt * vel(t + dt/2, p + k1/2)` (source lines
74-76). -/
def rk4_k2 (gv : ℚ → ℚ → ℚ → ℚ → ℤ → ℚ × ℚ × ℚ)
    (fh : ℚ → ℚ → ℤ → ℤ) (dt t : ℚ) (p : Particle) : ℚ × ℚ × ℚ :=
  let pos := rk4_pos2 gv dt t p
  let v := gv (t + 1 / 2 * dt) pos.1 pos.2.1 pos.2.2 (rk4_host2 gv fh dt t p)
  (dt * v.1, dt * v.2.1, dt * v.2.2)

/-- Stage 3 probe position `p + k2 / 2` (source lines 79-82). -/
def rk4_pos3 (gv : ℚ → ℚ → ℚ → ℚ → ℤ → ℚ × ℚ × ℚ)
    (fh : ℚ → ℚ → ℤ → ℤ) (dt t : ℚ) (p : Particle) : ℚ × ℚ × ℚ :=
  let k2 := rk4_k2 gv fh dt t p
  (p.xpos + 1 / 2 * k2.1, p.ypos + 1 / 2 * k2.2.1, p.zpos + 1 / 2 * k2.2.2)

/-- Host element found for the stage 3 probe, using the stage 2 host as
the guess (source line 83). -/
def rk4_host3 (gv : ℚ → ℚ → ℚ → ℚ → ℤ → ℚ × ℚ × ℚ)
    (fh : ℚ → ℚ → ℤ → ℤ) (dt t : ℚ) (p : Particle) : ℤ :=
  let pos := rk4_pos3 gv fh dt t p
  fh pos.1 pos.2.1 (rk4_host2 gv fh dt t p)

/-- Stage 3 increment `k3 = dt * vel(t + dt/2, p + k2/2)` (source lines
85-87). -/
def rk4_k3 (gv : ℚ → ℚ → ℚ → ℚ → ℤ → ℚ × ℚ × ℚ)
    (fh : ℚ → ℚ → ℤ → ℤ) (dt t : ℚ) (p : Particle) : ℚ × ℚ × ℚ :=
  let pos := rk4_pos3 gv fh dt t p
  let v := gv (t + 1 / 2 * dt) pos.1 pos.2.1 pos.2.2 (rk4_host3 gv fh dt t p)
  (dt * v.1, dt * v.2.1, dt * v.2.2)

/-- Stage 4 probe position `p + k3` (source lines 90-93). -/
def rk4_pos4 (gv : ℚ → ℚ → ℚ → ℚ → ℤ → ℚ × ℚ × ℚ)
    (fh : ℚ → ℚ → ℤ → ℤ) (dt t : ℚ) (p : Particle) : ℚ × ℚ × ℚ :=
  let k3 := rk4_k3 gv fh dt t p
  (p.xpos + k3.1, p.ypos + k3.2.1, p.zpos + k3.2.2)

/-- Host element found for the stage 4 probe, using the stage 3 host as
the guess (source line 94). -/
def rk4_host4 (gv : ℚ → ℚ → ℚ → ℚ → ℤ → ℚ × ℚ × ℚ)
    (fh : ℚ → ℚ → ℤ → ℤ) (dt t : ℚ) (p : Particle) : ℤ :=
  let pos := rk4_pos4 gv fh dt t p
  fh pos.1 pos.2.1 (rk4_host3 gv fh dt t p)

/-- Stage 4 increment `k4 = dt * vel(t + dt, p + k3)` (source lines
96-98). -/
def rk4_k4 (gv : ℚ → ℚ → ℚ → ℚ → ℤ → ℚ × ℚ × ℚ)
    (fh : ℚ → ℚ → ℤ → ℤ) (dt t : ℚ) (p : Particle) : ℚ × ℚ × ℚ :=
  let pos := rk4_pos4 gv fh dt t p
  let v := gv (t + dt) pos.1 pos.2.1 pos.2.2 (rk4_host4 gv fh dt t p)
  (dt * v.1, dt * v.2.1, dt * v.2.2)

/-- Candidate final position `p + (k1 + 2 k2 + 2 k3 + k4) / 6` (source
lines 101-103). -/
def rk4_posf (gv : ℚ → ℚ → ℚ → ℚ → ℤ → ℚ × ℚ × ℚ)
    (fh : ℚ → ℚ → ℤ → ℤ) (dt t : ℚ) (p : Particle) : ℚ × ℚ × ℚ :=
  let k1 := rk4_k1 gv dt t p
  let k2 := rk4_k2 gv fh dt t p
  let k3 := rk4_k3 gv fh dt t p
  let k4 := rk4_k4 gv fh dt t p
  (p.xpos + (k1.1 + 2 * k2.1 + 2 * k3.1 + k4.1) / 6,
    p.ypos + (k1.2.1 + 2 * k2.2.1 + 2 * k3.2.1 + k4.2.1) / 6,
    p.zpos + (k1.2.2 + 2 * k2.2.2 + 2 * k3.2.2 + k4.2.2) / 6)

/-- Host element found for the candidate final position, using the stage
4 host as the guess (source line 104). -/
def rk4_hostf (gv : ℚ → ℚ → ℚ → ℚ → ℤ → ℚ × ℚ × ℚ)
    (fh : ℚ → ℚ → ℤ → ℤ) (dt t : ℚ) (p : Particle) : ℤ :=
  let pos := rk4_posf gv fh dt t p
  fh pos.1 pos.2.1 (rk4_host4 gv fh dt t p)

/-- RK4Integrator.advect (`integrator.pyx`, lines 37-111): each stage
re-locates the probe position; a `-1` host at any stage returns without
touching the particle, otherwise the particle is moved to the candidate
final position and host. -/
def rk4_advect (gv : ℚ → ℚ → ℚ → ℚ → ℤ → ℚ × ℚ × ℚ)
    (fh : ℚ → ℚ → ℤ → ℤ) (dt t : ℚ) (p : Particle) : Particle :=
  if rk4_host2 gv fh dt t p = -1 then p
  else if rk4_host3 gv fh dt t p = -1 then p
  else if rk4_host4 gv fh dt t p = -1 then p
  else if rk4_hostf gv fh dt t p = -1 then p
  else
    let pos := rk4_posf gv fh dt t p
    { p with xpos := pos.1, ypos := pos.2.1, zpos := pos.2.2,
             host_horizontal_elem := rk4_hostf gv fh dt t p }

/-- Claim C4: if the re-location at stage 2, 3 or 4 or at the summed
final position reports that the probe left the domain (host `-1`), then
`advect` returns with the particle exactly as it was on entry: position,
host element and every other field unchanged. -/
theorem rk4_advect_early_exit_unchanged
    (gv : ℚ → ℚ → ℚ → ℚ → ℤ → ℚ × ℚ × ℚ) (fh : ℚ → ℚ → ℤ → ℤ)
    (dt t : ℚ) (p : Particle)
    (h : rk4_host2 gv fh dt t p = -1 ∨ rk4_host3 gv fh dt t p = -1 ∨
      rk4_host4 gv fh dt t p = -1 ∨ rk4_hostf gv fh dt t p = -1) :
    rk4_advect gv fh dt t p = p := by
  unfold rk4_advect
  rcases h with h | h | h | h <;> simp [h]

/-- Claim C4 witness: a host search that always reports `-1` triggers the
stage 2 exit and the particle `(1, 2, 3)` in element `7` is returned
untouched. -/
theorem rk4_advect_early_exit_unchanged_witness :
    rk4_advect (fun _ _ _ _ _ => (1, 1, 1)) (fun _ _ _ => -1) 1 0
      ⟨0, 1, 2, 3, 7, 0, true⟩ = ⟨0, 1, 2, 3, 7, 0, true⟩ :=
  rk4_advect_early_exit_unchanged _ _ 1 0 _ (Or.inl rfl)

/-- Componentwise sum of velocity triples. -/
def vadd (a b : ℚ × ℚ × ℚ) : ℚ × ℚ × ℚ :=
  (a.1 + b.1, a.2.1 + b.2.1, a.2.2 + b.2.2)

/-- Scaling of a velocity triple. -/
def vsmul (c : ℚ) (a : ℚ × ℚ × ℚ) : ℚ × ℚ × ℚ :=
  (c * a.1, c * a.2.1, c * a.2.2)

/-- Increment `k1 = h * vel(t, p)` of the classical RK4 scheme, written
exactly as the claim states it, for a velocity field of time and position
only. -/
def claim_k1 (f : ℚ → ℚ × ℚ × ℚ → ℚ × ℚ × ℚ) (h t : ℚ) (p : ℚ × ℚ × ℚ) :
    ℚ × ℚ × ℚ :=
  vsmul h (f t p)

/-- Increment `k2 = h * vel(t + h/2, p + k1/2)`. -/
def claim_k2 (f : ℚ → ℚ × ℚ × ℚ → ℚ × ℚ × ℚ) (h t : ℚ) (p : ℚ × ℚ × ℚ) :
    ℚ × ℚ × ℚ :=
  vsmul h (f (t + h / 2) (vadd p (vsmul (1 / 2) (claim_k1 f h t p))))

/-- Increment `k3 = h * vel(t + h/2, p + k2/2)`. -/
def claim_k3 (f : ℚ → ℚ × ℚ × ℚ → ℚ × ℚ × ℚ) (h t : ℚ) (p : ℚ × ℚ × ℚ) :
    ℚ × ℚ × ℚ :=
  vsmul h (f (t + h / 2) (vadd p (vsmul (1 / 2) (claim_k2 f h t p))))

/-- Increment `k4 = h * vel(t + h, p + k3)`. -/
def claim_k4 (f : ℚ → ℚ × ℚ × ℚ → ℚ × ℚ × ℚ) (h t : ℚ) (p : ℚ × ℚ × ℚ) :
    ℚ × ℚ × ℚ :=
  vsmul h (f (t + h) (vadd p (claim_k3 f h t p)))

/-- Final RK4 position `p + (k1 + 2 k2 + 2 k3 + k4) / 6` as the claim
states it. -/
def claim_rk4_final (f : ℚ → ℚ × ℚ × ℚ → ℚ × ℚ × ℚ) (h t : ℚ)
    (p : ℚ × ℚ × ℚ) : ℚ × ℚ × ℚ :=
  vadd p (vsmul (1 / 6)
    (vadd (claim_k1 f h t p) (vadd (vsmul 2 (claim_k2 f h t p))
      (vadd (vsmul 2 (claim_k3 f h t p)) (claim_k4 f h t p)))))

/-- Claim C8: when every host lookup succeeds, `advect` over a step of
length `h` moves the particle from `p` to
`p + (k1 + 2 k2 + 2 k3 + k4) / 6` with the stage increments evaluated at
times `(t, t + h/2, t + h/2, t + h)` and intermediate positions
`p + c * k_prev`, exactly the classical RK4 update. -/
theorem rk4_advect_is_classical_rk4
    (f : ℚ → ℚ × ℚ × ℚ → ℚ × ℚ × ℚ) (fh : ℚ → ℚ → ℤ → ℤ)
    (dt t : ℚ) (p : Particle)
    (hfh : ∀ x y g, fh x y g ≠ -1) :
    ((rk4_advect (fun tt x y z _ => f tt (x, y, z)) fh dt t p).xpos,
      (rk4_advect (fun tt x y z _ => f tt (x, y, z)) fh dt t p).ypos,
      (rk4_advect (fun tt x y z _ => f tt (x, y, z)) fh dt t p).zpos) =
    claim_rk4_final f dt t (p.xpos, p.ypos, p.zpos) := by
  have h2 := hfh (rk4_pos2 (fun tt x y z _ => f tt (x, y, z)) dt t p).1
    (rk4_pos2 (fun tt x y z _ => f tt (x, y, z)) dt t p).2.1
    p.host_horizontal_elem
  have hk1 : rk4_k1 (fun tt x y z _ => f tt (x, y, z)) dt t p =
      claim_k1 f dt t (p.xpos, p.ypos, p.zpos) := by
    simp only [rk4_k1, claim_k1, vsmul]
  have hk2 : rk4_k2 (fun tt x y z _ => f tt (x, y, z)) fh dt t p =
      claim_k2 f dt t (p.xpos, p.ypos, p.zpos) := by
    simp only [rk4_k2, rk4_pos2, claim_k2, hk1, vadd, vsmul]
    ring_nf
  have hk3 : rk4_k3 (fun tt x y z _ => f tt (x, y, z)) fh dt t p =
      claim_k3 f dt t (p.xpos, p.ypos, p.zpos) := by
    simp only [rk4_k3, rk4_pos3, claim_k3, hk2, vadd, vsmul]
    ring_nf
  have hk4 : rk4_k4 (fun tt x y z _ => f tt (x, y, z)) fh dt t p =
      claim_k4 f dt t (p.xpos, p.ypos, p.zpos) := by
    simp only [rk4_k4, rk4_pos4, claim_k4, hk3, vadd, vsmul]
  have hsum : rk4_posf (fun tt x y z _ => f tt (x, y, z)) fh dt t p =
      claim_rk4_final f dt t (p.xpos, p.ypos, p.zpos) := by
    simp only [rk4_posf, claim_rk4_final, hk1, hk2, hk3, hk4, vadd, vsmul]
    refine Prod.ext ?_ (Prod.ext ?_ ?_) <;> simp <;> ring
  simp only [rk4_advect, rk4_host2, rk4_host3, rk4_host4, rk4_hostf]
  rw [if_neg (hfh _ _ _), if_neg (hfh _ _ _), if_neg (hfh _ _ _),
    if_neg (hfh _ _ _)]
  rw [← hsum]

/-- Claim C8 witness: with the position-independent field `f t q = q`
fixed at the identity and every host lookup returning `0`, `advect` from
`(1, 2, 3)` with `h = 1`, `t = 0` lands exactly on the classical RK4
value. -/
theorem rk4_advect_is_classical_rk4_witness :
    ((rk4_advect (fun tt x y z _ => (fun _ q => q) tt (x, y, z))
        (fun _ _ _ => 0) 1 0 ⟨0, 1, 2, 3, 0, 0, true⟩).xpos,
      (rk4_advect (fun tt x y z _ => (fun _ q => q) tt (x, y, z))
        (fun _ _ _ => 0) 1 0 ⟨0, 1, 2, 3, 0, 0, true⟩).ypos,
      (rk4_advect (fun tt x y z _ => (fun _ q => q) tt (x, y, z))
        (fun _ _ _ => 0) 1 0 ⟨0, 1, 2, 3, 0, 0, true⟩).zpos) =
    claim_rk4_final (fun _ q => q) 1 0 (1, 2, 3) :=
  rk4_advect_is_classical_rk4 (fun _ q => q) (fun _ _ _ => 0) 1 0
    ⟨0, 1, 2, 3, 0, 0, true⟩ (fun _ _ _ => by simp)

/-!
FVCOMOPTModel.update (`model.pyx`, lines 244-345), per particle.  The
collaborators are bundled as a record of functions: `advect` stands for
`num_integrator.advect` (returning the host error flag and the delta it
wrote), the two random walk models return their delta contributions,
`find_host`, the horizontal boundary condition calculator, `get_zmin`,
`get_zmax`, the vertical boundary condition calculator and `find_zlayer`
mirror the corresponding data reader and calculator calls.
-/
structure UpdateEnv where
  advect : ℚ → Particle → ℤ × (ℚ × ℚ × ℚ)
  vert_rand_walk : ℚ → Particle → ℚ × ℚ × ℚ
  horiz_rand_walk : ℚ → Particle → ℚ × ℚ × ℚ
  find_host : ℚ → ℚ → ℚ → ℚ → ℤ → ℤ × ℤ
  apply_horiz_bc : ℚ → ℚ → ℚ → ℚ → ℤ → ℚ × ℚ
  get_zmin : ℚ → ℚ → ℚ → ℤ → ℚ
  get_zmax : ℚ → ℚ → ℚ → ℤ → ℚ
  apply_vert_bc : ℚ → ℚ → ℚ → ℚ
  find_zlayer : ℚ → ℚ → ℚ → ℚ → ℤ → ℤ → ℤ
  time_step : ℚ

/-- FVCOMOPTModel.update for one particle (`model.pyx`, lines 281-345):
skip particles outside the domain; run advection, marking the particle
out of domain when the integrator reports `-2`; accumulate the random
walk deltas; sum the contributions; run the land boundary loop; on flag
`-2` mark the particle out of domain; on flag `0` apply the vertical
boundary condition and commit the new position; any other flag raises a
ValueError.  `none` models an exhausted boundary loop or the raise. -/
def fvcom_update_particle (env : UpdateEnv) (time : ℚ) (fuel : ℕ)
    (p : Particle) : Option Particle :=
  if p.in_domain then
    let adv := env.advect time p
    if adv.1 = -2 then some { p with in_domain := false }
    else
      let d1 := adv.2
      let d2 := env.vert_rand_walk time p
      let d3 := env.horiz_rand_walk time p
      let xpos := p.xpos + (d1.1 + d2.1 + d3.1)
      let ypos := p.ypos + (d1.2.1 + d2.2.1 + d3.2.1)
      let zpos := p.zpos + (d1.2.2 + d2.2.2 + d3.2.2)
      match bc_step_loop env.find_host env.apply_horiz_bc p.xpos p.ypos
          p.host_horizontal_elem fuel
          (env.find_host p.xpos p.ypos xpos ypos p.host_horizontal_elem)
          xpos ypos with
      | none => none
      | some (flag, host, xpos, ypos) =>
        if flag = -2 then some { p with in_domain := false }
        else if flag = 0 then
          let zmin := env.get_zmin (time + env.time_step) xpos ypos host
          let zmax := env.get_zmax (time + env.time_step) xpos ypos host
          let zpos :=
            if zpos < zmin ∨ zmax < zpos then env.apply_vert_bc zpos zmin zmax
            else zpos
          let host_z_layer := env.find_zlayer (time + env.time_step) xpos ypos
            zpos host p.host_z_layer
          some { p with xpos := xpos, ypos := ypos, zpos := zpos,
                        host_horizontal_elem := host,
                        host_z_layer := host_z_layer }
        else none
  else some p

/-- FVCOMOPTModel.get_diagnostics (`model.pyx`, lines 347-374): one entry
per particle in the particle set, holding position, host element, and the
depth and surface elevation sampled at the particle; the loop has no
in_domain filter. -/
def get_diagnostics (get_zmin get_zmax : ℚ → ℚ → ℚ → ℤ → ℚ) (time : ℚ)
    (ps : List Particle) : List (ℚ × ℚ × ℚ × ℤ × ℚ × ℚ) :=
  ps.map fun p =>
    (p.xpos, p.ypos, p.zpos, p.host_horizontal_elem,
      get_zmin time p.xpos p.ypos p.host_horizontal_elem,
      get_zmax time p.xpos p.ypos p.host_horizontal_elem)

/-- An update environment in which advection succeeds with no
displacement, the random walks are silent, and every host query reports
an open boundary crossing (flag `-2`). -/
def openCrossEnv : UpdateEnv where
  advect := fun _ _ => (0, (0, 0, 0))
  vert_rand_walk := fun _ _ => (0, 0, 0)
  horiz_rand_walk := fun _ _ => (0, 0, 0)
  find_host := fun _ _ _ _ _ => (-2, 0)
  apply_horiz_bc := fun _ _ x y _ => (x, y)
  get_zmin := fun _ _ _ _ => -1
  get_zmax := fun _ _ _ _ => 0
  apply_vert_bc := fun z _ _ => z
  find_zlayer := fun _ _ _ _ _ _ => 0
  time_step := 1

/-- Claim C6 counterexample: a particle whose crossing test returns the
open boundary flag `-2` is indeed marked out of domain by the very next
update, but it keeps contributing an entry to `get_diagnostics`, which
iterates over every particle with no in_domain filter - so the second
half of the claim fails on the code. -/
theorem open_cross_still_in_diagnostics :
    fvcom_update_particle openCrossEnv 0 10 ⟨0, 1, 2, 3, 4, 0, true⟩ =
        some ⟨0, 1, 2, 3, 4, 0, false⟩ ∧
      get_diagnostics openCrossEnv.get_zmin openCrossEnv.get_zmax 0
        [⟨0, 1, 2, 3, 4, 0, false⟩] = [(1, 2, 3, 4, -1, 0)] := by
  constructor
  · norm_num [fvcom_update_particle, openCrossEnv, bc_step_loop]
  · norm_num [get_diagnostics, openCrossEnv]


/-- When the incoming flag is not the land crossing flag `-1`, the
boundary loop exits immediately with that flag, host and position. -/
theorem bc_step_loop_exit (fh : ℚ → ℚ → ℚ → ℚ → ℤ → ℤ × ℤ)
    (ab : ℚ → ℚ → ℚ → ℚ → ℤ → ℚ × ℚ) (x_old y_old : ℚ) (host0 : ℤ)
    (fuel : ℕ) (r : ℤ × ℤ) (x y : ℚ) (hr : r.1 ≠ -1) :
    bc_step_loop fh ab x_old y_old host0 fuel r x y = some (r.1, r.2, x, y) := by
  cases fuel <;> simp [bc_step_loop, hr]

/-- Claim C6 (amended): an active particle whose post-step crossing test
returns the open boundary flag `-2` is marked out of domain (in_domain
set to false) by that same call to update, with its position left
untouched; however it does not stop contributing to diagnostics:
`get_diagnostics` returns one entry per particle of the particle set,
with no in_domain filter. -/
theorem open_cross_terminal_but_reported (env : UpdateEnv) (time : ℚ)
    (fuel : ℕ) (p : Particle) (hin : p.in_domain = true)
    (hadv : (env.advect time p).1 ≠ -2)
    (hfh : ∀ a b c d e, (env.find_host a b c d e).1 = -2) :
    fvcom_update_particle env time fuel p = some { p with in_domain := false } ∧
      ∀ ps : List Particle,
        (get_diagnostics env.get_zmin env.get_zmax time ps).length =
          ps.length := by
  refine ⟨?_, fun ps => by simp [get_diagnostics]⟩
  simp only [fvcom_update_particle, hin, if_true]
  rw [if_neg hadv,
    bc_step_loop_exit _ _ _ _ _ _ _ _ _ (by rw [hfh]; norm_num)]
  simp [hfh]

/-- Claim C6 witness: the amended statement applied to the concrete open
crossing environment and the particle at `(1, 2, 3)` in element `4`. -/
theorem open_cross_terminal_but_reported_witness :
    fvcom_update_particle openCrossEnv 0 3 ⟨0, 1, 2, 3, 4, 0, true⟩ =
        some ⟨0, 1, 2, 3, 4, 0, false⟩ ∧
      ∀ ps : List Particle,
        (get_diagnostics openCrossEnv.get_zmin openCrossEnv.get_zmax 0
          ps).length = ps.length :=
  open_cross_terminal_but_reported openCrossEnv 0 3 ⟨0, 1, 2, 3, 4, 0, true⟩
    rfl (by norm_num [openCrossEnv]) (fun _ _ _ _ _ => rfl)

/-!
GOTMOPTModel.update (`model.pyx`, lines 535-595), per particle.  The
vertical random walk model returns its delta contribution; `get_zmin` and
`get_zmax` are queried at the fixed column position `(0, 0)` and host `0`
as in the source; `find_zlayer` locates the new host z layer.
-/
structure GotmEnv where
  vert_rand_walk : ℚ → Particle → ℚ × ℚ × ℚ
  get_zmin : ℚ → ℚ → ℚ → ℤ → ℚ
  get_zmax : ℚ → ℚ → ℚ → ℤ → ℚ
  find_zlayer : ℚ → ℚ → ℚ → ℚ → ℤ → ℤ → ℤ

/-- GOTMOPTModel.update for one particle (`model.pyx`, lines 558-595):
skip particles outside the domain; sum the vertical random walk
displacement; reflect at the surface and bottom boundaries (raising a
ValueError when the reflected value is still out of range, modelled by
`none`); relocate the host z layer and commit the new vertical
position. -/
def gotm_update_particle (env : GotmEnv) (time : ℚ) (p : Particle) :
    Option Particle :=
  if p.in_domain then
    let delta := env.vert_rand_walk time p
    let zpos := p.zpos + delta.2.2
    let zmin := env.get_zmin time 0 0 0
    let zmax := env.get_zmax time 0 0 0
    match gotm_reflect_zpos zmin zmax zpos with
    | none => none
    | some zpos =>
      let host_z_layer := env.find_zlayer time p.xpos p.ypos zpos
        p.host_horizontal_elem p.host_z_layer
      some { p with zpos := zpos, host_z_layer := host_z_layer }
  else some p

/-- Claim C9: out_of_domain is a terminal state: a particle whose
in_domain flag is false is skipped by both drivers, so a call to update
(with any collaborators and at any time) returns it with every field
unchanged, and by induction it never moves again. -/
theorem out_of_domain_terminal (p : Particle) (hp : p.in_domain = false) :
    (∀ (env : UpdateEnv) (time : ℚ) (fuel : ℕ),
      fvcom_update_particle env time fuel p = some p) ∧
      (∀ (env : GotmEnv) (time : ℚ),
        gotm_update_particle env time p = some p) := by
  constructor
  · intro env time fuel
    simp [fvcom_update_particle, hp]
  · intro env time
    simp [gotm_update_particle, hp]

/-- Claim C9 witness: the out of domain particle at `(1, 2, 3)` is left
exactly in place by the FVCOM driver (with the open crossing environment
at time `0`, fuel `5`) and by the GOTM driver. -/
theorem out_of_domain_terminal_witness :
    fvcom_update_particle openCrossEnv 0 5 ⟨0, 1, 2, 3, 4, 0, false⟩ =
        some ⟨0, 1, 2, 3, 4, 0, false⟩ ∧
      gotm_update_particle ⟨fun _ _ => (0, 0, 0), fun _ _ _ _ => -1,
          fun _ _ _ _ => 0, fun _ _ _ _ _ _ => 0⟩ 0
        ⟨0, 1, 2, 3, 4, 0, false⟩ = some ⟨0, 1, 2, 3, 4, 0, false⟩ :=
  ⟨(out_of_domain_terminal ⟨0, 1, 2, 3, 4, 0, false⟩ rfl).1 openCrossEnv 0 5,
    (out_of_domain_terminal ⟨0, 1, 2, 3, 4, 0, false⟩ rfl).2 _ 0⟩

/-!
FVCOMDataReader.read_data (`fvcom_data_reader.pyx`, lines 96-103).  The
reader state holds the bounding time points and the snapshot buffers the
mediator fills in (`zeta`, `u`, `v`, `omega`, `kh`, `viscofh` at the last
and next time indices), abstracted as a single indexed family.  The frame
advance (`mediator.update_reading_frames` followed by
`_read_time_dependent_vars`) is an arbitrary state transformer.
-/
structure FvcomReaderState where
  time_last : ℚ
  time_next : ℚ
  snapshots : ℕ → ℚ

/-- FVCOMDataReader.read_data: compute the linear time fraction; when it
falls outside `[0, 1)` advance the reading frame, otherwise do nothing. -/
def fvcom_read_data (advance : FvcomReaderState → FvcomReaderState)
    (time : ℚ) (s : FvcomReaderState) : FvcomReaderState :=
  let time_fraction := get_linear_fraction time s.time_last s.time_next
  if time_fraction < 0 ∨ 1 ≤ time_fraction then advance s else s

/-!
GOTMDataReader.read_data (`integrator.pyx` companion document, lines
286-303) with `_interpolate_in_time` (lines 250-269).  The state holds the
time bounds, the snapshot buffers (`zeta`, `zlev`, `kh` at the last and
next time indices) and the time-interpolated caches the reader maintains.
-/
structure GotmReaderState where
  time_last : ℚ
  time_next : ℚ
  zeta_last : ℚ
  zeta_next : ℚ
  zlev_last : ℕ → ℚ
  zlev_next : ℕ → ℚ
  kh_last : ℕ → ℚ
  kh_next : ℕ → ℚ
  time_fraction : ℚ
  bigH : ℚ
  zeta : ℚ
  zlev : ℕ → ℚ
  kh : ℕ → ℚ

/-- GOTMDataReader._interpolate_in_time: refresh the cached
time-interpolated fields from the snapshot buffers (the source uses
`get_linear_fraction_safe`, which agrees with the plain fraction whenever
the fraction lies in `[0, 1]`). -/
def gotm_interpolate_in_time (time : ℚ) (s : GotmReaderState) :
    GotmReaderState :=
  let tf := get_linear_fraction time s.time_last s.time_next
  { s with
    time_fraction := tf
    bigH := -(linear_interp tf (s.zlev_last 0) (s.zlev_next 0))
    zeta := linear_interp tf s.zeta_last s.zeta_next
    zlev := fun i => linear_interp tf (s.zlev_last i) (s.zlev_next i)
    kh := fun i => linear_interp tf (s.kh_last i) (s.kh_next i) }

/-- GOTMDataReader.read_data: advance the reading frame when the time
fraction falls outside `[0, 1)`, then recompute the interpolated
caches. -/
def gotm_read_data (advance : GotmReaderState → GotmReaderState)
    (time : ℚ) (s : GotmReaderState) : GotmReaderState :=
  let time_fraction := get_linear_fraction time s.time_last s.time_next
  let s1 := if time_fraction < 0 ∨ 1 ≤ time_fraction then advance s else s
  gotm_interpolate_in_time time s1

/-- With `t_last <= t < t_next` the linear fraction lies in `[0, 1)`. -/
theorem fraction_in_unit_of_between (t a b : ℚ) (h1 : a ≤ t) (h2 : t < b) :
    ¬(get_linear_fraction t a b < 0 ∨ 1 ≤ get_linear_fraction t a b) := by
  have hab : 0 < b - a := by linarith
  rintro (h | h)
  · exact absurd (div_nonneg (by linarith) hab.le) (not_le.mpr h)
  · have : (t - a) / (b - a) < 1 := (div_lt_one hab).mpr (by linarith)
    exact absurd h (not_le.mpr this)

/-- Claim C5: for `t_last <= t < t_next` the FVCOM `read_data` is a
no-op: the reading frame and every snapshot buffer are untouched; the
GOTM `read_data` likewise leaves the frame and the snapshot buffers
unchanged, and calling it twice at the same `t` yields the same state as
calling it once. -/
theorem read_data_frame_stable
    (advF : FvcomReaderState → FvcomReaderState) (time : ℚ)
    (s : FvcomReaderState) (advG : GotmReaderState → GotmReaderState)
    (g : GotmReaderState)
    (hs1 : s.time_last ≤ time) (hs2 : time < s.time_next)
    (hg1 : g.time_last ≤ time) (hg2 : time < g.time_next) :
    fvcom_read_data advF time s = s ∧
      (gotm_read_data advG time g).time_last = g.time_last ∧
      (gotm_read_data advG time g).time_next = g.time_next ∧
      (gotm_read_data advG time g).zeta_last = g.zeta_last ∧
      (gotm_read_data advG time g).zeta_next = g.zeta_next ∧
      (gotm_read_data advG time g).zlev_last = g.zlev_last ∧
      (gotm_read_data advG time g).zlev_next = g.zlev_next ∧
      (gotm_read_data advG time g).kh_last = g.kh_last ∧
      (gotm_read_data advG time g).kh_next = g.kh_next ∧
      gotm_read_data advG time (gotm_read_data advG time g) =
        gotm_read_data advG time g := by
  have hF := fraction_in_unit_of_between time s.time_last s.time_next hs1 hs2
  have hG := fraction_in_unit_of_between time g.time_last g.time_next hg1 hg2
  have hFread : fvcom_read_data advF time s = s := by
    simp only [fvcom_read_data]
    exact if_neg hF
  have hGread : gotm_read_data advG time g = gotm_interpolate_in_time time g := by
    simp only [gotm_read_data]
    rw [if_neg hG]
  refine ⟨hFread, ?_⟩
  rw [hGread]
  refine ⟨rfl, rfl, rfl, rfl, rfl, rfl, rfl, rfl, ?_⟩
  have hG2 : ¬(get_linear_fraction time
      (gotm_interpolate_in_time time g).time_last
      (gotm_interpolate_in_time time g).time_next < 0 ∨
        1 ≤ get_linear_fraction time
          (gotm_interpolate_in_time time g).time_last
          (gotm_interpolate_in_time time g).time_next) := hG
  simp only [gotm_read_data]
  rw [if_neg hG2]
  simp only [gotm_interpolate_in_time]

/-- Claim C5 witness: a concrete reader with frame `[0, 1)` queried at
`t = 1/2`, with an advance function that would shift the frame by one if
it were (wrongly) invoked. -/
theorem read_data_frame_stable_witness :
    fvcom_read_data
        (fun s => { s with time_last := s.time_last + 1 }) (1 / 2)
        ⟨0, 1, fun _ => 0⟩ = ⟨0, 1, fun _ => 0⟩ ∧
      (gotm_read_data id (1 / 2)
          ⟨0, 1, 0, 0, fun _ => 0, fun _ => 0, fun _ => 0, fun _ => 0,
            0, 0, 0, fun _ => 0, fun _ => 0⟩).time_last = 0 ∧
      (gotm_read_data id (1 / 2)
          ⟨0, 1, 0, 0, fun _ => 0, fun _ => 0, fun _ => 0, fun _ => 0,
            0, 0, 0, fun _ => 0, fun _ => 0⟩).time_next = 1 ∧
      (gotm_read_data id (1 / 2)
          ⟨0, 1, 0, 0, fun _ => 0, fun _ => 0, fun _ => 0, fun _ => 0,
            0, 0, 0, fun _ => 0, fun _ => 0⟩).zeta_last = 0 ∧
      (gotm_read_data id (1 / 2)
          ⟨0, 1, 0, 0, fun _ => 0, fun _ => 0, fun _ => 0, fun _ => 0,
            0, 0, 0, fun _ => 0, fun _ => 0⟩).zeta_next = 0 ∧
      (gotm_read_data id (1 / 2)
          ⟨0, 1, 0, 0, fun _ => 0, fun _ => 0, fun _ => 0, fun _ => 0,
            0, 0, 0, fun _ => 0, fun _ => 0⟩).zlev_last = (fun _ => 0) ∧
      (gotm_read_data id (1 / 2)
          ⟨0, 1, 0, 0, fun _ => 0, fun _ => 0, fun _ => 0, fun _ => 0,
            0, 0, 0, fun _ => 0, fun _ => 0⟩).zlev_next = (fun _ => 0) ∧
      (gotm_read_data id (1 / 2)
          ⟨0, 1, 0, 0, fun _ => 0, fun _ => 0, fun _ => 0, fun _ => 0,
            0, 0, 0, fun _ => 0, fun _ => 0⟩).kh_last = (fun _ => 0) ∧
      (gotm_read_data id (1 / 2)
          ⟨0, 1, 0, 0, fun _ => 0, fun _ => 0, fun _ => 0, fun _ => 0,
            0, 0, 0, fun _ => 0, fun _ => 0⟩).kh_next = (fun _ => 0) ∧
      gotm_read_data id (1 / 2) (gotm_read_data id (1 / 2)
          ⟨0, 1, 0, 0, fun _ => 0, fun _ => 0, fun _ => 0, fun _ => 0,
            0, 0, 0, fun _ => 0, fun _ => 0⟩) =
        gotm_read_data id (1 / 2)
          ⟨0, 1, 0, 0, fun _ => 0, fun _ => 0, fun _ => 0, fun _ => 0,
            0, 0, 0, fun _ => 0, fun _ => 0⟩ :=
  read_data_frame_stable (fun s => { s with time_last := s.time_last + 1 })
    (1 / 2) ⟨0, 1, fun _ => 0⟩ id
    ⟨0, 1, 0, 0, fun _ => 0, fun _ => 0, fun _ => 0, fun _ => 0,
      0, 0, 0, fun _ => 0, fun _ => 0⟩
    (by norm_num) (by norm_num) (by norm_num) (by norm_num)

/-!
FVCOMDataReader, velocity interpolation state (`fvcom_data_reader.pyx`).
`getPhi` abstracts `_get_phi` (which calls
`interpolation.get_barycentric_coords` over the node coordinates; the
interpolation module is not under `src/`); the remaining fields mirror
the memory views read from file: connectivity `nv`, adjacency `nbe`,
element centre coordinates `xc`, `yc`, the LLS coefficients `a1u`, `a2u`,
the sigma layer depths at nodes, the element-centred velocity snapshots
and the bounding time points.
-/
structure FvcomVelState where
  n_siglay : ℕ
  nv : Fin 3 → ℤ → ℤ
  nbe : Fin 3 → ℤ → ℤ
  xc : ℤ → ℚ
  yc : ℤ → ℚ
  a1u : Fin 4 → ℤ → ℚ
  a2u : Fin 4 → ℤ → ℚ
  siglay : ℕ → ℤ → ℚ
  u_last : ℕ → ℤ → ℚ
  u_next : ℕ → ℤ → ℚ
  v_last : ℕ → ℤ → ℚ
  v_next : ℕ → ℤ → ℚ
  time_last : ℚ
  time_next : ℚ
  getPhi : ℚ → ℚ → ℤ → Fin 3 → ℚ

/-- FVCOMDataReader._interp_on_sigma_layer
(`fvcom_data_reader.pyx`, lines 1173-1202): value of sigma on layer
`kidx` in element `host`, interpolated at barycentric coordinates
`phi`. -/
def interp_on_sigma_layer (r : FvcomVelState) (phi : Fin 3 → ℚ) (host : ℤ)
    (kidx : ℕ) : ℚ :=
  interpolate_within_element (fun i => r.siglay kidx (r.nv i host)) phi

/-- FVCOMDataReader._interpolate_vel_between_elements
(`fvcom_data_reader.pyx`, lines 1235-1250): the LLS evaluation
`vel_elem[0] + dudx * rx + dudy * ry` with `dudx`, `dudy` accumulated
over the four `a1u`/`a2u` coefficients of the host element. -/
def interpolate_vel_between_elements (r : FvcomVelState) (xpos ypos : ℚ)
    (host : ℤ) (vel_elem : Fin 4 → ℚ) : ℚ :=
  let rx := xpos - r.xc host
  let ry := ypos - r.yc host
  let dudx := vel_elem 0 * r.a1u 0 host + vel_elem 1 * r.a1u 1 host +
    vel_elem 2 * r.a1u 2 host + vel_elem 3 * r.a1u 3 host
  let dudy := vel_elem 0 * r.a2u 0 host + vel_elem 1 * r.a2u 1 host +
    vel_elem 2 * r.a2u 2 host + vel_elem 3 * r.a2u 3 host
  vel_elem 0 + dudx * rx + dudy * ry

/-- Location of the particle within the vertical sigma grid as
determined by the layer search: either above the top layer or below the
bottom layer (`boundary k_boundary`), or between two bounding layers
(`interior k_lower k_upper sigma_lower sigma_upper`). -/
inductive SigmaLoc where
  | boundary (k_boundary : ℕ)
  | interior (k_lower k_upper : ℕ) (sigma_lower sigma_upper : ℚ)
deriving DecidableEq, Repr

/-- Middle-of-column scan of `_get_uv_velocity_using_linear_least_squares_interpolation`
(source lines 890-900): walk `k` upward while the remaining count is
positive and return the first layer whose interpolated sigma lies at or
below `zpos`. -/
def find_lower_layer (r : FvcomVelState) (phi : Fin 3 → ℚ) (host : ℤ)
    (zpos : ℚ) : ℕ → ℕ → Option ℕ
  | 0, _ => none
  | count + 1, k =>
    if interp_on_sigma_layer r phi host k ≤ zpos then some k
    else find_lower_layer r phi host zpos count (k + 1)

/-- Sigma layer search of
`_get_uv_velocity_using_linear_least_squares_interpolation` (source lines
866-903): try the top layer, then the bottom layer, then scan the middle
of the water column; a failed scan raises a ValueError (`none`). -/
def find_sigma_loc (r : FvcomVelState) (phi : Fin 3 → ℚ) (host : ℤ)
    (zpos : ℚ) : Option SigmaLoc :=
  if interp_on_sigma_layer r phi host 0 ≤ zpos then some (.boundary 0)
  else if zpos ≤ interp_on_sigma_layer r phi host (r.n_siglay - 1) then
    some (.boundary (r.n_siglay - 1))
  else
    match find_lower_layer r phi host zpos (r.n_siglay - 1) 1 with
    | none => none
    | some k =>
      some (.interior k (k - 1)
        (interp_on_sigma_layer r phi host k)
        (interp_on_sigma_layer r phi host (k - 1)))

/-- Time-interpolated u at element centre `e` on layer `k`. -/
def u_at (r : FvcomVelState) (tf : ℚ) (k : ℕ) (e : ℤ) : ℚ :=
  linear_interp tf (r.u_last k e) (r.u_next k e)

/-- Time-interpolated v at element centre `e` on layer `k`. -/
def v_at (r : FvcomVelState) (tf : ℚ) (k : ℕ) (e : ℤ) : ℚ :=
  linear_interp tf (r.v_last k e) (r.v_next k e)

/-- FVCOMDataReader._get_uv_velocity_using_linear_least_squares_interpolation
(`fvcom_data_reader.pyx`, lines 792-977).  The branch structure follows
the source: boundary elements (some `nbe < 0`) use the host centre values
only; other elements build the four-entry centre value arrays and run the
LLS evaluation.  In the surface and bottom branch (source lines 927-942)
the entries `j = 1..3` are read at the neighbour elements
`nbe[j-1, host]`; in the mid-column branch (source lines 943-958) the
source reads every entry at `host` itself, so the neighbour values never
enter.  `none` models the ValueError raises for a failed layer search and
for time or sigma fractions outside `[0, 1]`. -/
def uv_velocity_lls (r : FvcomVelState) (time xpos ypos zpos : ℚ)
    (host : ℤ) : Option (ℚ × ℚ) :=
  let phi := r.getPhi xpos ypos host
  match find_sigma_loc r phi host zpos with
  | none => none
  | some loc =>
    let tf := get_linear_fraction time r.time_last r.time_next
    if tf < 0 ∨ 1 < tf then none
    else
      let nbe_min := min (min (r.nbe 0 host) (r.nbe 1 host)) (r.nbe 2 host)
      if nbe_min < 0 then
        match loc with
        | .boundary kb => some (u_at r tf kb host, v_at r tf kb host)
        | .interior kl ku sl su =>
          let up1 := u_at r tf kl host
          let vp1 := v_at r tf kl host
          let up2 := u_at r tf ku host
          let vp2 := v_at r tf ku host
          let sf := get_linear_fraction zpos sl su
          if sf < 0 ∨ 1 < sf then none
          else some (linear_interp sf up1 up2, linear_interp sf vp1 vp2)
      else
        match loc with
        | .boundary kb =>
          let uc1 : Fin 4 → ℚ := fun j =>
            match j with
            | 0 => u_at r tf kb host
            | 1 => u_at r tf kb (r.nbe 0 host)
            | 2 => u_at r tf kb (r.nbe 1 host)
            | 3 => u_at r tf kb (r.nbe 2 host)
          let vc1 : Fin 4 → ℚ := fun j =>
            match j with
            | 0 => v_at r tf kb host
            | 1 => v_at r tf kb (r.nbe 0 host)
            | 2 => v_at r tf kb (r.nbe 1 host)
            | 3 => v_at r tf kb (r.nbe 2 host)
          some (interpolate_vel_between_elements r xpos ypos host uc1,
            interpolate_vel_between_elements r xpos ypos host vc1)
        | .interior kl ku sl su =>
          -- source lines 955-958 read the host element here, where the
          -- boundary-layer branch above reads the neighbour
          let uc1 : Fin 4 → ℚ := fun j =>
            match j with
            | 0 => u_at r tf kl host
            | 1 => u_at r tf kl host
            | 2 => u_at r tf kl host
            | 3 => u_at r tf kl host
          let vc1 : Fin 4 → ℚ := fun j =>
            match j with
            | 0 => v_at r tf kl host
            | 1 => v_at r tf kl host
            | 2 => v_at r tf kl host
            | 3 => v_at r tf kl host
          let uc2 : Fin 4 → ℚ := fun j =>
            match j with
            | 0 => u_at r tf ku host
            | 1 => u_at r tf ku host
            | 2 => u_at r tf ku host
            | 3 => u_at r tf ku host
          let vc2 : Fin 4 → ℚ := fun j =>
            match j with
            | 0 => v_at r tf ku host
            | 1 => v_at r tf ku host
            | 2 => v_at r tf ku host
            | 3 => v_at r tf ku host
          let up1 := interpolate_vel_between_elements r xpos ypos host uc1
          let vp1 := interpolate_vel_between_elements r xpos ypos host vc1
          let up2 := interpolate_vel_between_elements r xpos ypos host uc2
          let vp2 := interpolate_vel_between_elements r xpos ypos host vc2
          let sf := get_linear_fraction zpos sl su
          if sf < 0 ∨ 1 < sf then none
          else some (linear_interp sf up1 up2, linear_interp sf vp1 vp2)

/-- Claimed mid-column LLS value of u, written from the words of the
claim: `u[0]` is the host centre value and `u[1..3]` the values at the
three neighbouring element centres, each interpolated in time and then in
sigma between the bounding layers, and the velocity is
`u[0] + (sum of u[j] * a1u[j]) * (x - xc) + (sum of u[j] * a2u[j]) * (y - yc)`. -/
def claim_u_lls (r : FvcomVelState) (time xpos ypos zpos : ℚ) (host : ℤ)
    (kl ku : ℕ) (sl su : ℚ) : ℚ :=
  let tf := get_linear_fraction time r.time_last r.time_next
  let sf := get_linear_fraction zpos sl su
  let uval : Fin 4 → ℚ := fun j =>
    match j with
    | 0 => linear_interp sf (u_at r tf kl host) (u_at r tf ku host)
    | 1 => linear_interp sf (u_at r tf kl (r.nbe 0 host))
        (u_at r tf ku (r.nbe 0 host))
    | 2 => linear_interp sf (u_at r tf kl (r.nbe 1 host))
        (u_at r tf ku (r.nbe 1 host))
    | 3 => linear_interp sf (u_at r tf kl (r.nbe 2 host))
        (u_at r tf ku (r.nbe 2 host))
  uval 0 +
    (uval 0 * r.a1u 0 host + uval 1 * r.a1u 1 host + uval 2 * r.a1u 2 host +
      uval 3 * r.a1u 3 host) * (xpos - r.xc host) +
    (uval 0 * r.a2u 0 host + uval 1 * r.a2u 1 host + uval 2 * r.a2u 2 host +
      uval 3 * r.a2u 3 host) * (ypos - r.yc host)

/-- A concrete two-layer velocity state: host element `0` with interior
neighbours `1`, `2`, `3`, zero velocity at the host centre and unit
velocity at every neighbour centre, sigma layers at `-1/4` and `-3/4`,
`a1u = 1`, `a2u = 0`, element centres at the origin. -/
def bugVelState : FvcomVelState where
  n_siglay := 2
  nv := fun _ _ => 0
  nbe := fun i _ => (i.val : ℤ) + 1
  xc := fun _ => 0
  yc := fun _ => 0
  a1u := fun _ _ => 1
  a2u := fun _ _ => 0
  siglay := fun k _ => if k = 0 then -1 / 4 else -3 / 4
  u_last := fun _ e => if e = 0 then 0 else 1
  u_next := fun _ e => if e = 0 then 0 else 1
  v_last := fun _ e => if e = 0 then 0 else 1
  v_next := fun _ e => if e = 0 then 0 else 1
  time_last := 0
  time_next := 1
  getPhi := fun _ _ _ _ => 1 / 3

/-- Claim C2: evaluating the source interpolation for the mid-column
point `(x, y, z) = (1, 0, -1/2)` of the interior host element `0` of
`bugVelState` gives `(0, 0)` - the host centre value - because the source
fills the neighbour slots of the centre value arrays with the host
values; the formula stated by the claim, which reads the neighbour
centres, gives `3` for the u component at the same point.  The claimed
equality therefore fails on the code. -/
theorem uv_lls_neighbour_indexing_bug :
    uv_velocity_lls bugVelState (1 / 2) 1 0 (-1 / 2) 0 = some (0, 0) ∧
      claim_u_lls bugVelState (1 / 2) 1 0 (-1 / 2) 0 1 0 (-3 / 4) (-1 / 4) = 3 := by
  constructor
  · norm_num [uv_velocity_lls, find_sigma_loc, find_lower_layer,
      interp_on_sigma_layer, interpolate_within_element, bugVelState,
      interpolate_vel_between_elements, u_at, v_at, linear_interp,
      get_linear_fraction]
  · norm_num [claim_u_lls, bugVelState, u_at, linear_interp,
      get_linear_fraction]

/-!
FVCOMOPTModel._create_seed (`model.pyx`, lines 167-238), per seed
particle.  The data reader calls are abstracted: `local_search` is the
two-value form of `find_host_using_local_search` the seed code unpacks,
`global_search` is `find_host_using_global_search`, and `get_zmin`,
`get_zmax` and `find_zlayer` mirror the reader interface (the spec
describes `find_zlayer` as a total layer lookup that clamps at the outer
layers, so it is modelled as a total function).
-/
structure SeedEnv where
  local_search : ℚ → ℚ → ℤ → ℤ × ℤ
  global_search : ℚ → ℚ → ℤ
  get_zmin : ℚ → ℚ → ℚ → ℤ → ℚ
  get_zmax : ℚ → ℚ → ℚ → ℤ → ℚ
  find_zlayer : ℚ → ℚ → ℚ → ℚ → ℤ → ℤ → ℤ

/-- Depth coordinate convention selected by
`SIMULATION.depth_coordinates`. -/
inductive DepthCoords where
  | cartesian
  | sigma
deriving DecidableEq, Repr

/-- Host determination of `_create_seed` (source lines 190-199): with a
guess, try the local search first and fall back to the global search when
its flag is negative; without a guess go straight to the global
search. -/
def seed_find_host (env : SeedEnv) (guess : Option ℤ) (x y : ℚ) : ℤ :=
  match guess with
  | some g =>
    let fh := env.local_search x y g
    if fh.1 < 0 then env.global_search x y else fh.2
  | none => env.global_search x y

/-- Converted seed depth (source lines 204-215): in cartesian mode the
input is a distance below the free surface, converted with `z_temp +
zmax`; in sigma mode it is converted with `sigma_to_cartesian_coords`. -/
def seed_depth (env : SeedEnv) (dc : DepthCoords) (time x y : ℚ) (host : ℤ)
    (z_temp : ℚ) : ℚ :=
  let zmin := env.get_zmin time x y host
  let zmax := env.get_zmax time x y host
  match dc with
  | .cartesian => z_temp + zmax
  | .sigma => sigma_to_cartesian_coords z_temp zmin zmax

/-- FVCOMOPTModel._create_seed for one seed particle (source lines
190-238): locate the host; with a host, convert the depth, raise a
ValueError (`none`) when it lies below the sea floor or above the free
surface, otherwise find the host z layer and create an in-domain
particle; with no host, create a particle flagged as out of domain (the
remaining ParticleSmartPtr fields default; the defaults are modelled as
zero). -/
def create_seed_particle (env : SeedEnv) (dc : DepthCoords) (time : ℚ)
    (guess : Option ℤ) (group : ℤ) (x y z_temp : ℚ) : Option Particle :=
  let host := seed_find_host env guess x y
  if 0 ≤ host then
    let zmin := env.get_zmin time x y host
    let zmax := env.get_zmax time x y host
    let z := seed_depth env dc time x y host z_temp
    if z < zmin then none
    else if zmax < z then none
    else
      let z_layer := env.find_zlayer time x y z host 0
      some ⟨group, x, y, z, host, z_layer, true⟩
  else some ⟨group, 0, 0, 0, 0, 0, false⟩

/-- Claim C10: when the horizontal position of a seed particle resolves
to a host element, `_create_seed` raises a ValueError exactly when the
converted depth lies strictly below `zmin` or strictly above `zmax`; when
no host element is found, no error is raised and the particle is created
with in_domain set to false. -/
theorem create_seed_depth_check (env : SeedEnv) (dc : DepthCoords)
    (time : ℚ) (guess : Option ℤ) (group : ℤ) (x y z_temp : ℚ) :
    (0 ≤ seed_find_host env guess x y →
      ((create_seed_particle env dc time guess group x y z_temp).isNone = true ↔
        (seed_depth env dc time x y (seed_find_host env guess x y) z_temp <
            env.get_zmin time x y (seed_find_host env guess x y) ∨
          env.get_zmax time x y (seed_find_host env guess x y) <
            seed_depth env dc time x y (seed_find_host env guess x y) z_temp))) ∧
      (seed_find_host env guess x y < 0 →
        ∃ q, create_seed_particle env dc time guess group x y z_temp = some q ∧
          q.in_domain = false) := by
  constructor
  · intro hhost
    simp only [create_seed_particle, if_pos hhost]
    split_ifs with h1 h2
    · simp [h1]
    · simp [h2]
    · simp only [Option.isNone_some]
      constructor
      · intro h; cases h
      · rintro (h | h) <;> [exact absurd h h1; exact absurd h h2]
  · intro hhost
    refine ⟨⟨group, 0, 0, 0, 0, 0, false⟩, ?_, rfl⟩
    simp only [create_seed_particle, if_neg (not_le.mpr hhost)]

/-- Claim C10 witness: with a reader whose water column is `[0, 1]` and a
cartesian seed depth `5`, the converted depth `6` lies above the free
surface and the seed creation raises; the error condition of the iff is
discharged concretely. -/
theorem create_seed_depth_check_witness :
    (create_seed_particle
        ⟨fun _ _ _ => (0, 0), fun _ _ => 0, fun _ _ _ _ => 0,
          fun _ _ _ _ => 1, fun _ _ _ _ _ _ => 0⟩
        .cartesian 0 none 7 0 0 5).isNone = true :=
  ((create_seed_depth_check
      ⟨fun _ _ _ => (0, 0), fun _ _ => 0, fun _ _ _ _ => 0,
        fun _ _ _ _ => 1, fun _ _ _ _ _ _ => 0⟩
      .cartesian 0 none 7 0 0 5).1 (by norm_num [seed_find_host])).mpr
    (Or.inr (by norm_num [seed_depth, seed_find_host]))
